import Mathlib

/-!
# EthernetIPMQTTBridge — verification of the polling/publish orchestration core

Shallow embedding of the repository's core components:

* `src/services/mqtt_client.py` — `MQTTClientService.publish_device_data` and
  its two formatters `_publish_device_data_json` / `_publish_device_data_string`;
* `src/services/plc_manager.py` — `PLCConnection` (session lifecycle, poll loop,
  tag reading, publishing) and `PLCManager` (registry operations);
* `src/app.py` — `EthernetIPMQTTBridge.update_device` / `stop_device` /
  `start_device` with their shared non-reentrant lock.

Python dicts are embedded as insertion-ordered association lists with
overwrite-in-place semantics (`dinsert`).  Machine concurrency (one daemon
thread per device loop) is embedded as an interleaving transition system over
explicit loop program counters.  External effects (the EtherNet/IP reader, the
MQTT broker, wall-clock timestamps) are parameters of the embedded functions.
-/

/-- Python runtime values, as produced by the tag reader and consumed by the
MQTT formatters (`int`, `str`, `bool` and lists thereof; the simulator and
pylogix clients return these shapes). -/
inductive PyVal where
  | int (n : Int)
  | str (s : String)
  | bool (b : Bool)
  | list (vs : List PyVal)

/-- Python `type(value).__name__`, with the list case specialised to the
`f"array[{len(value)}]"` label computed in `PLCConnection._read_tags`
(src/services/plc_manager.py lines 122-124). -/
def PyVal.typeLabel : PyVal → String
  | .int _ => "int"
  | .str _ => "str"
  | .bool _ => "bool"
  | .list vs => "array[" ++ toString vs.length ++ "]"

mutual
/-- Python `str(value)` for the values above (ints print in decimal, strings
print verbatim, booleans print `True`/`False`, lists print `[e1, e2]` with
`repr` applied to elements). -/
def PyVal.toStr : PyVal → String
  | .int n => toString n
  | .str s => s
  | .bool b => if b then "True" else "False"
  | .list vs => "[" ++ String.intercalate ", " (PyVal.reprList vs) ++ "]"

/-- Python `repr` of each element of a list (strings gain quotes). -/
def PyVal.reprList : List PyVal → List String
  | [] => []
  | v :: vs =>
    (match v with
      | .str s => "\x27" ++ s ++ "\x27"
      | w => PyVal.toStr w) :: PyVal.reprList vs
end

/-- One entry of a tag read-result mapping: either `{'value': v, 'type': t}`
or `{'error': msg}` (src/services/plc_manager.py lines 119, 126). -/
inductive TagEntry where
  | val (v : PyVal) (ty : String)
  | err (msg : String)

/-- `True` exactly when the Python test `'error' in tag_data` succeeds for this
entry. -/
def TagEntry.isErr : TagEntry → Bool
  | .err _ => true
  | .val _ _ => false

/-- Python-dict assignment `d[k] = v`: overwrite in place when the key exists
(keeping its position), append otherwise. -/
def dinsert (d : List (String × α)) (k : String) (v : α) : List (String × α) :=
  match d with
  | [] => [(k, v)]
  | (k0, v0) :: rest =>
    if k0 = k then (k0, v) :: rest else (k0, v0) :: dinsert rest k v

/-- Python-dict lookup `d[k]` / `d.get(k)`. -/
def dlookup (d : List (String × α)) (k : String) : Option α :=
  match d with
  | [] => none
  | (k0, v0) :: rest => if k0 = k then some v0 else dlookup rest k

/-- The keys of an embedded dict, in insertion order. -/
def dkeys (d : List (String × α)) : List String := d.map Prod.fst

/-- Python `hardware_id or device_name` (`None` and the empty string are
falsy). -/
def orName (hardware_id : Option String) (device_name : String) : String :=
  match hardware_id with
  | none => device_name
  | some h => if h = "" then device_name else h

/-- Merge loop of `_publish_device_data_json` (src/services/mqtt_client.py
lines 208-211): for each tag in insertion order, if the entry has no
`'error'` key, do `payload[tag_name] = data['value']`. -/
def mergeTags (payload : List (String × PyVal)) :
    List (String × TagEntry) → List (String × PyVal)
  | [] => payload
  | (_, .err _) :: rest => mergeTags payload rest
  | (k, .val v _) :: rest => mergeTags (dinsert payload k v) rest

/-- `MQTTClientService._publish_device_data_json` (src/services/mqtt_client.py
lines 184-217), as the pure payload it builds: start from
`{'HWID': hardware_id or device_name}`, merge non-errored tag values, then do
`payload['Timestamp'] = timestamp`.  The timestamp
(`datetime.utcnow().isoformat()`) is an input. -/
def publishDeviceDataJson (device_name : String) (hardware_id : Option String)
    (tag_data : List (String × TagEntry)) (timestamp : String) :
    List (String × PyVal) :=
  dinsert (mergeTags [("HWID", .str (orName hardware_id device_name))] tag_data)
    "Timestamp" (.str timestamp)

/-- Value-extraction loop of `_publish_device_data_string`
(src/services/mqtt_client.py lines 242-244): `str(data['value'])` for each
non-errored tag, in insertion order. -/
def tagValueStrings : List (String × TagEntry) → List String
  | [] => []
  | (_, .err _) :: rest => tagValueStrings rest
  | (_, .val v _) :: rest => v.toStr :: tagValueStrings rest

/-- Python `','.join(values)`. -/
def joinComma : List String → String
  | [] => ""
  | [v] => v
  | v :: vs => v ++ "," ++ joinComma vs

/-- `MQTTClientService._publish_device_data_string`
(src/services/mqtt_client.py lines 219-250), as the pure payload string
`f"{hwid},{','.join(tag_values)},{timestamp}"`. -/
def publishDeviceDataString (device_name : String) (hardware_id : Option String)
    (tag_data : List (String × TagEntry)) (timestamp : String) : String :=
  orName hardware_id device_name ++ "," ++
    joinComma (tagValueStrings tag_data) ++ "," ++ timestamp

/-- Helper for `splitComma`: accumulate characters until a comma. -/
def splitCommaAux : List Char → String → List String
  | [], acc => [acc]
  | c :: cs, acc =>
    if c = ',' then acc :: splitCommaAux cs "" else splitCommaAux cs (acc.push c)

/-- The comma-separated fields of a payload string, as Python
`payload.split(',')` would produce them (used only to state field-level
properties of the delimited format). -/
def splitComma (s : String) : List String := splitCommaAux s.data ""

/-! ## DeviceSession: `PLCConnection` (src/services/plc_manager.py) -/

/-- The per-device state of a `PLCConnection` (src/services/plc_manager.py
lines 20-41): configuration fields plus the runtime fields initialised in
`__init__`.  `poll_interval` (a Python float, integral at every call site,
default 5.0 seconds) is embedded as whole seconds.  The `thread` handle is
modelled separately by the loop transition system below. -/
structure Session where
  device_id : String
  name : String
  host : String
  slot : Nat
  tags : List String
  poll_interval : Nat
  running : Bool
  connected : Bool
  last_data : List (String × TagEntry)
  last_error : Option String
  message_count : Nat
  last_update : Option String

/-- The configuration arguments accepted by `PLCManager.add_device`
(src/services/plc_manager.py lines 210-230). -/
structure DeviceConfig where
  device_id : String
  name : String
  host : String
  slot : Nat
  tags : List String
  poll_interval : Nat

/-- `PLCConnection.__init__` (src/services/plc_manager.py lines 20-41):
`running = False`, `connected = False`, `last_data = {}`,
`last_error = None`, `message_count = 0`, `last_update = None`. -/
def initSession (c : DeviceConfig) : Session :=
  { device_id := c.device_id, name := c.name, host := c.host, slot := c.slot
    tags := c.tags, poll_interval := c.poll_interval
    running := false, connected := false, last_data := []
    last_error := none, message_count := 0, last_update := none }

/-- `PLCConnection.start` (src/services/plc_manager.py lines 43-53): if
already running, return `False` leaving the session untouched; otherwise set
the run flag, spawn the poll-loop thread (modelled in the loop transition
system), and return `True` immediately. -/
def Session.start (s : Session) : Bool × Session :=
  if s.running then (false, s) else (true, { s with running := true })

/-- `PLCConnection.stop` (src/services/plc_manager.py lines 55-66): if not
running, return `False`; otherwise clear the run flag, `join(timeout=2)` the
loop thread (which returns whether or not the thread has exited), clear the
connection flag, and return `True`. -/
def Session.stop (s : Session) : Bool × Session :=
  if s.running then (true, { s with running := false, connected := false })
  else (false, s)

/-- The status dict returned by `PLCConnection.get_status`
(src/services/plc_manager.py lines 159-174). -/
structure Status where
  device_id : String
  name : String
  host : String
  slot : Nat
  tags : List String
  poll_interval : Nat
  running : Bool
  connected : Bool
  last_data : List (String × TagEntry)
  last_error : Option String
  message_count : Nat
  last_update : Option String

/-- `PLCConnection.get_status`: a field-for-field snapshot of the session. -/
def getStatus (s : Session) : Status :=
  { device_id := s.device_id, name := s.name, host := s.host, slot := s.slot
    tags := s.tags, poll_interval := s.poll_interval
    running := s.running, connected := s.connected, last_data := s.last_data
    last_error := s.last_error, message_count := s.message_count
    last_update := s.last_update }

/-- Drop leading whitespace characters. -/
def stripLeading : List Char → List Char
  | [] => []
  | c :: cs => if c.isWhitespace then stripLeading cs else c :: cs

/-- Python `str.strip()` on a tag name: drop whitespace from both ends. -/
def pyStrip (s : String) : String :=
  ⟨List.reverse (stripLeading (List.reverse (stripLeading s.data)))⟩

/-- One attempt of the EtherNet/IP reader, as `PLCConnection._read_tags`
observes it: either the connector yields one `(tag_name, status, value)` row
per operation (the tag name is the stripped part of `descr` before `=`,
already parsed here), or connecting / iterating raises an exception with a
message. -/
inductive ReaderResult where
  | ok (entries : List (String × Bool × PyVal))
  | connErr (msg : String)

/-- `PLCConnection._read_tags` (src/services/plc_manager.py lines 97-137):
strip and drop empty tag names; with no tags left, record
`"No tags configured"`, clear the connection flag and return `{}`; on a
reader exception record `"Read error: ..."`, clear the connection flag and
return `{}`; otherwise build the result dict (per-row: `{'error': 'Read
failed'}` on falsy status, else `{'value': v, 'type': label}`), set the
connection flag and clear `last_error`. -/
def readTags (s : Session) (env : ReaderResult) :
    Session × List (String × TagEntry) :=
  let cleaned := (s.tags.map pyStrip).filter (fun t => t ≠ "")
  if cleaned.isEmpty then
    ({ s with connected := false, last_error := some "No tags configured" }, [])
  else
    match env with
    | .connErr m =>
      ({ s with connected := false, last_error := some ("Read error: " ++ m) }, [])
    | .ok entries =>
      let results := entries.foldl (fun acc e =>
        match e with
        | (t, false, _) => dinsert acc t (.err "Read failed")
        | (t, true, v) => dinsert acc t (.val v v.typeLabel)) []
      ({ s with connected := true, last_error := none }, results)

/-! ### The `_publish_data` → `publish_device_data` call

`PLCConnection._publish_data` (src/services/plc_manager.py lines 139-157)
invokes `self.mqtt_service.publish_device_data(...)` once per non-errored tag,
passing keyword arguments only.  Python binds a keyword call iff every keyword
matches a parameter name and every parameter without a default receives an
argument; otherwise the call raises `TypeError` before the callee body runs.
We embed both signatures literally and this binding rule. -/

/-- Python keyword-call binding: every keyword names a parameter and every
required (default-less) parameter is supplied. -/
def pyKwCallBinds (params required kwargs : List String) : Bool :=
  kwargs.all (fun k => params.contains k) &&
    required.all (fun p => kwargs.contains p)

/-- Parameter names of `MQTTClientService.publish_device_data`
(src/services/mqtt_client.py line 155), `self` excluded. -/
def publishDeviceDataParams : List String :=
  ["device_id", "device_name", "tag_data", "topic_prefix", "hardware_id",
   "mqtt_format"]

/-- Its parameters without defaults. -/
def publishDeviceDataRequired : List String :=
  ["device_id", "device_name", "tag_data", "topic_prefix"]

/-- Keyword names used by the call in `PLCConnection._publish_data`
(src/services/plc_manager.py lines 146-153). -/
def publishDataCallKwargs : List String :=
  ["device_id", "device_name", "tag_name", "value", "data_type",
   "topic_prefix"]

/-- Whether the per-tag call in `_publish_data` binds without `TypeError`. -/
def publishDataCallOk : Bool :=
  pyKwCallBinds publishDeviceDataParams publishDeviceDataRequired
    publishDataCallKwargs

/-- The loop of `_publish_data`, generic over which per-tag calls raise: for
each tag without an `'error'` key, attempt the publish call; when it raises,
the exception is caught and logged; when it returns, `message_count += 1`
(the boolean the callee returns is ignored).  Result: the updated session,
the number of calls that completed, and the number of calls attempted. -/
def publishDataGen : Session → List (String × TagEntry) → (String → Bool) →
    Session × Nat × Nat
  | s, [], _ => (s, 0, 0)
  | s, (_, .err _) :: rest, raises => publishDataGen s rest raises
  | s, (t, .val _ _) :: rest, raises =>
    if raises t then
      ((publishDataGen s rest raises).1, (publishDataGen s rest raises).2.1,
        (publishDataGen s rest raises).2.2 + 1)
    else
      ((publishDataGen { s with message_count := s.message_count + 1 } rest raises).1,
        (publishDataGen { s with message_count := s.message_count + 1 } rest raises).2.1 + 1,
        (publishDataGen { s with message_count := s.message_count + 1 } rest raises).2.2 + 1)

/-- `PLCConnection._publish_data` as the code actually behaves: each call
raises iff the keyword binding against `publish_device_data`'s signature
fails. -/
def publishData (s : Session) (data : List (String × TagEntry)) :
    Session × Nat × Nat :=
  publishDataGen s data (fun _ => !publishDataCallOk)

/-- The number of non-errored entries of a read batch (the tags
`_publish_data` attempts to publish). -/
def countVal : List (String × TagEntry) → Nat
  | [] => 0
  | (_, .err _) :: rest => countVal rest
  | (_, .val _ _) :: rest => countVal rest + 1

/-- One body of the `while self.running` loop of `PLCConnection._poll_loop`
(src/services/plc_manager.py lines 72-93), minus the sleep: read tags; if the
result dict is truthy (non-empty), store it as `last_data`, run
`_publish_data`, and stamp `last_update` with the current time.  The
database notification (`device_service.update_tag_values`) sits in its own
`try/except`, touches no session field, and is omitted.  `raises` abstracts
which per-tag publish calls raise (the caught exceptions of lines 156-157). -/
def pollCycle (s : Session) (env : ReaderResult) (raises : String → Bool)
    (now : String) : Session :=
  let r := readTags s env
  if r.2.isEmpty then r.1
  else
    { (publishDataGen { r.1 with last_data := r.2 } r.2 raises).1 with
        last_update := some now }

/-- The environment of one loop iteration: either the cycle body runs
(reader outcome plus publish-call outcomes), or some unexpected exception
escapes the cycle into the outer `try` (src/services/plc_manager.py lines
89-91), which records `str(e)` as `last_error`. -/
inductive CycleEnv where
  | normal (r : ReaderResult) (raises : String → Bool)
  | unexpected (msg : String)

/-- Outcome of one iteration of `_poll_loop`: the loop either exits (run flag
observed clear at the `while` test) or continues to the sleep. -/
inductive LoopResult where
  | exit (s : Session)
  | cont (s : Session)

/-- One iteration of `_poll_loop`: test the run flag; if clear, exit leaving
state untouched; otherwise run the cycle body, catching any unexpected
exception into `last_error`, and continue (`time.sleep` then next test). -/
def loopStep (s : Session) (env : CycleEnv) (now : String) : LoopResult :=
  if s.running then
    match env with
    | .normal r raises => .cont (pollCycle s r raises now)
    | .unexpected m => .cont { s with last_error := some m }
  else .exit s

/-- Run `_poll_loop` through a finite list of iteration environments,
stopping early if the loop exits. -/
def loopRun (s : Session) : List (CycleEnv × String) → Session
  | [] => s
  | (e, now) :: rest =>
    match loopStep s e now with
    | .exit s2 => s2
    | .cont s2 => loopRun s2 rest

/-- An iteration environment in which the reader raises (a connection-level
read failure). -/
def failingEnv : CycleEnv → Bool
  | .normal (.connErr _) _ => true
  | _ => false

/-! ## Orchestrator: `PLCManager` (src/services/plc_manager.py lines 177-304)

`self.connections` is a Python dict `device_id → PLCConnection`, embedded as
an insertion-ordered association list. -/

/-- The manager's registry. -/
abbrev Registry := List (String × Session)

/-- `PLCManager.add_device` (lines 210-230): refuse a registered identifier,
otherwise construct a fresh `PLCConnection` and register it. -/
def addDevice (reg : Registry) (c : DeviceConfig) : Bool × Registry :=
  if (dlookup reg c.device_id).isSome then (false, reg)
  else (true, reg ++ [(c.device_id, initSession c)])

/-- `PLCManager.start_device` (lines 244-249): `False` for an unknown
identifier, else delegate to the session's `start` (mutating it in place). -/
def startDevice (reg : Registry) (id : String) : Bool × Registry :=
  match dlookup reg id with
  | none => (false, reg)
  | some s =>
    let r := Session.start s
    (r.1, dinsert reg id r.2)

/-- `PLCManager.stop_device` (lines 251-256). -/
def stopDevice (reg : Registry) (id : String) : Bool × Registry :=
  match dlookup reg id with
  | none => (false, reg)
  | some s =>
    let r := Session.stop s
    (r.1, dinsert reg id r.2)

/-- `PLCManager.get_device_status` (lines 272-277): `None` for an unknown
identifier, else the session's status snapshot. -/
def getDeviceStatus (reg : Registry) (id : String) : Option Status :=
  (dlookup reg id).map getStatus

/-! ## Loop threads as an interleaving transition system

`PLCConnection.start` spawns a daemon thread running `_poll_loop`;
`PLCConnection.stop` clears the run flag and calls `thread.join(timeout=2)`,
which returns whether or not the thread has exited (with the default
`poll_interval` of 5 seconds the loop's sleep outlasts the join timeout).
We model one device's run flag together with every loop thread ever spawned
for it, each at an explicit program counter, and let a schedule interleave
lifecycle calls with loop progress.  A `join` that returns with the thread
still alive is exactly a schedule on which the thread has not yet stepped to
`exited`. -/

/-- Program counter of one `_poll_loop` thread: at the `while self.running`
test, in the cycle body, in `time.sleep(poll_interval)`, or exited. -/
inductive LPC where
  | top
  | body
  | sleeping
  | exited
deriving DecidableEq

/-- One device's lifecycle state: its run flag and all loop threads spawned
for it so far (in spawn order). -/
structure DevState where
  running : Bool
  loops : List LPC
deriving DecidableEq

/-- Before the first `start`: flag clear, no loop threads. -/
def DevState.init : DevState := ⟨false, []⟩

/-- Schedule actions: a `start()` call, a `stop()` call (set flag false,
join with timeout — returns in bounded time regardless of thread state), or
one step of progress by loop thread `i`. -/
inductive Act where
  | start
  | stop
  | step (i : Nat)

/-- One step of a `_poll_loop` thread given the current run flag: the
`while` test either enters the body or falls through to exit; the body
proceeds to the sleep; the sleep wakes back to the test. -/
def lpcStep (running : Bool) : LPC → LPC
  | .top => if running then .body else .exited
  | .body => .sleeping
  | .sleeping => .top
  | .exited => .exited

/-- Apply one action (src/services/plc_manager.py lines 43-53 for `start`,
55-66 for `stop`). -/
def applyAct (d : DevState) : Act → DevState
  | .start => if d.running then d else ⟨true, d.loops ++ [.top]⟩
  | .stop => if d.running then ⟨false, d.loops⟩ else d
  | .step i =>
    ⟨d.running, d.loops.set i (lpcStep d.running (d.loops.getD i .exited))⟩

/-- Run a schedule. -/
def runActs (d : DevState) (acts : List Act) : DevState :=
  acts.foldl applyAct d

/-- The number of loop threads that have not exited. -/
def activeCount : List LPC → Nat
  | [] => 0
  | p :: rest => (if p = LPC.exited then 0 else 1) + activeCount rest

/-- Active (not-yet-exited) loop threads of a device. -/
def activeLoops (d : DevState) : Nat := activeCount d.loops

/-- Schedules on which every `start()` happens only after all previously
spawned loop threads have exited — i.e. on which every `stop`'s join
actually outlived the loop before the device was started again. -/
def joinedSchedule (d : DevState) : List Act → Bool
  | [] => true
  | a :: rest =>
    (match a with
      | .start => activeLoops d == 0
      | _ => true) && joinedSchedule (applyAct d a) rest

/-! ## `EthernetIPMQTTBridge` (src/app.py)

`update_device` (lines 94-122) executes `with self.lock:` and, for a running
device, calls `self.stop_device(device_id)` — which itself executes
`with self.lock:` (lines 220-229).  `threading.Lock` is not reentrant: the
second acquire by the holding thread blocks forever.  We thread an explicit
"this thread already holds the bridge lock" flag through the embedded calls;
acquiring while it is set is a self-deadlock, `blocked`. -/

/-- Result of running bridge code that may self-deadlock on the bridge
lock. -/
inductive POutcome (α : Type) where
  | ok (a : α)
  | blocked

/-- `with self.lock:` entry for the thread described by `held`: blocks
forever when that thread already holds the non-reentrant lock. -/
def acquireLock (held : Bool) : POutcome Unit :=
  if held then .blocked else .ok ()

/-- A `DeviceConnection` of src/app.py (lines 17-33): configuration plus run
flag (the runtime fields not consulted by `update_device` are omitted). -/
structure BDevice where
  name : String
  host : String
  slot : Nat
  tags : List String
  mqtt_topic_prefix : String
  poll_interval : Nat
  running : Bool

/-- The bridge registry `self.devices`. -/
abbrev BRegistry := List (String × BDevice)

/-- The keyword arguments of `EthernetIPMQTTBridge.update_device`, each
defaulting to `None` (only non-`None` ones are applied). -/
structure BUpdate where
  name : Option String
  host : Option String
  slot : Option Nat
  tags : Option (List String)
  mqtt_topic_prefix : Option String
  poll_interval : Option Nat

/-- The field mutations of `update_device` (src/app.py lines 106-117). -/
def applyBUpdate (d : BDevice) (u : BUpdate) : BDevice :=
  { d with
      name := u.name.getD d.name
      host := u.host.getD d.host
      slot := u.slot.getD d.slot
      tags := u.tags.getD d.tags
      mqtt_topic_prefix := u.mqtt_topic_prefix.getD d.mqtt_topic_prefix
      poll_interval := u.poll_interval.getD d.poll_interval }

/-- `EthernetIPMQTTBridge.stop_device` (src/app.py lines 220-229), entered
with `held` recording whether the calling thread already holds the bridge
lock: acquire the lock, then clear the run flag and join(timeout=2). -/
def bridgeStopDevice (held : Bool) (reg : BRegistry) (id : String) :
    POutcome (Bool × BRegistry) :=
  match acquireLock held with
  | .blocked => .blocked
  | .ok _ =>
    match dlookup reg id with
    | none => .ok (false, reg)
    | some d => .ok (true, dinsert reg id { d with running := false })

/-- `EthernetIPMQTTBridge.start_device` (src/app.py lines 206-218), with the
same lock discipline. -/
def bridgeStartDevice (held : Bool) (reg : BRegistry) (id : String) :
    POutcome (Bool × BRegistry) :=
  match acquireLock held with
  | .blocked => .blocked
  | .ok _ =>
    match dlookup reg id with
    | none => .ok (false, reg)
    | some d =>
      if d.running then .ok (false, reg)
      else .ok (true, dinsert reg id { d with running := true })

/-- `EthernetIPMQTTBridge.update_device` (src/app.py lines 94-122): acquire
the bridge lock; for an unknown identifier return `False`; else, if the
device is running, call `stop_device` (with the lock now held by this same
thread), mutate the non-`None` fields, and, if it had been running, call
`start_device` (again under the held lock); return `True`. -/
def bridgeUpdateDevice (reg : BRegistry) (id : String) (u : BUpdate) :
    POutcome (Bool × BRegistry) :=
  match acquireLock false with
  | .blocked => .blocked
  | .ok _ =>
    match dlookup reg id with
    | none => .ok (false, reg)
    | some d =>
      let was_running := d.running
      match (if was_running then bridgeStopDevice true reg id
             else .ok (true, reg)) with
      | .blocked => .blocked
      | .ok r1 =>
        match dlookup r1.2 id with
        | none => .ok (false, r1.2)
        | some d1 =>
          let reg2 := dinsert r1.2 id (applyBUpdate d1 u)
          match (if was_running then bridgeStartDevice true reg2 id
                 else .ok (true, reg2)) with
          | .blocked => .blocked
          | .ok r2 => .ok (true, r2.2)

/-- The non-errored `(tag, value)` pairs of a read batch, in insertion order
(the pairs the json formatter merges and the pairs whose values the delimited
formatter joins). -/
def successPairs : List (String × TagEntry) → List (String × PyVal)
  | [] => []
  | (_, .err _) :: rest => successPairs rest
  | (k, .val v _) :: rest => (k, v) :: successPairs rest

/-- A concrete one-tag session used by witnesses: a registered device with
its loop running, nothing read yet. -/
def sampleSession : Session :=
  { device_id := "d1", name := "Dev", host := "h", slot := 0
    tags := ["A"], poll_interval := 5, running := true, connected := false
    last_data := [], last_error := none, message_count := 0
    last_update := none }

/-- A concrete device configuration used by witnesses. -/
def sampleConfig : DeviceConfig :=
  { device_id := "d1", name := "Dev", host := "h", slot := 0
    tags := ["A"], poll_interval := 5 }

/-- A concrete bridge device (src/app.py) with the given run flag, used by
witnesses. -/
def sampleBDevice (r : Bool) : BDevice :=
  { name := "Dev", host := "h", slot := 0, tags := ["A"]
    mqtt_topic_prefix := "ethernetip/Dev/", poll_interval := 5, running := r }

/-- An `update_device` call passing no keyword arguments (all default to
`None`). -/
def noUpdate : BUpdate :=
  { name := none, host := none, slot := none, tags := none
    mqtt_topic_prefix := none, poll_interval := none }

/-! ## Dictionary lemmas -/

theorem dlookup_dinsert_self (d : List (String × α)) (k : String) (v : α) :
    dlookup (dinsert d k v) k = some v := by
  induction d with
  | nil => simp [dinsert, dlookup]
  | cons hd tl ih =>
    obtain ⟨k0, v0⟩ := hd
    by_cases h : k0 = k
    · simp [dinsert, dlookup, h]
    · simp [dinsert, dlookup, h, ih]

theorem dlookup_dinsert_ne (d : List (String × α)) {k k2 : String} (v : α)
    (h : k2 ≠ k) : dlookup (dinsert d k2 v) k = dlookup d k := by
  induction d with
  | nil => simp [dinsert, dlookup, h]
  | cons hd tl ih =>
    obtain ⟨k0, v0⟩ := hd
    by_cases h0 : k0 = k2
    · subst h0
      simp [dinsert, dlookup, h]
    · simp [dinsert, dlookup, h0, ih]

theorem dinsert_of_not_mem (d : List (String × α)) {k : String} (v : α)
    (h : ¬ k ∈ dkeys d) : dinsert d k v = d ++ [(k, v)] := by
  induction d with
  | nil => simp [dinsert]
  | cons hd tl ih =>
    obtain ⟨k0, v0⟩ := hd
    simp only [dkeys, List.map_cons, List.mem_cons] at h
    push_neg at h
    have hne : ¬ k0 = k := fun hEq => h.1 hEq.symm
    simp [dinsert, hne, ih (by simpa [dkeys] using h.2)]

theorem dlookup_append_left_none (d1 d2 : List (String × α)) (k : String)
    (h : dlookup d1 k = none) : dlookup (d1 ++ d2) k = dlookup d2 k := by
  induction d1 with
  | nil => simp
  | cons hd tl ih =>
    obtain ⟨k0, v0⟩ := hd
    by_cases h0 : k0 = k
    · simp [dlookup, h0] at h
    · simp only [dlookup, h0, if_false, List.cons_append] at h ⊢
      exact ih h

theorem dkeys_append (d1 d2 : List (String × α)) :
    dkeys (d1 ++ d2) = dkeys d1 ++ dkeys d2 := by
  simp [dkeys]

/-! ## Formatter lemmas -/

theorem mergeTags_eq_append (td : List (String × TagEntry))
    (p : List (String × PyVal))
    (hnd : (dkeys (successPairs td)).Nodup)
    (hdisj : ∀ k ∈ dkeys (successPairs td), ¬ k ∈ dkeys p) :
    mergeTags p td = p ++ successPairs td := by
  induction td generalizing p with
  | nil => simp [mergeTags, successPairs]
  | cons hd rest ih =>
    obtain ⟨k, e⟩ := hd
    cases e with
    | err m =>
      simpa [mergeTags, successPairs] using
        ih p (by simpa [successPairs] using hnd)
          (by simpa [successPairs] using hdisj)
    | val v ty =>
      simp only [successPairs, dkeys, List.map_cons, List.nodup_cons] at hnd
      have hk : ¬ k ∈ dkeys p := hdisj k (by simp [successPairs, dkeys])
      have hrest : ∀ k2 ∈ dkeys (successPairs rest), ¬ k2 ∈ dkeys (p ++ [(k, v)]) := by
        intro k2 hk2
        rw [dkeys_append]
        simp only [List.mem_append]
        push_neg
        constructor
        · refine hdisj k2 ?_
          simp only [successPairs, dkeys, List.map_cons, List.mem_cons]
          exact Or.inr (by simpa [dkeys] using hk2)
        · simp only [dkeys, List.map_cons, List.map_nil, List.mem_singleton]
          intro hEq
          exact hnd.1 (hEq ▸ hk2)
      calc mergeTags (dinsert p k v) rest
          = mergeTags (p ++ [(k, v)]) rest := by rw [dinsert_of_not_mem p v hk]
        _ = (p ++ [(k, v)]) ++ successPairs rest := ih _ hnd.2 hrest
        _ = p ++ successPairs ((k, .val v ty) :: rest) := by
            simp [successPairs]

theorem dlookup_mergeTags_not_mem (td : List (String × TagEntry))
    (p : List (String × PyVal)) (k : String) (h : ¬ k ∈ dkeys td) :
    dlookup (mergeTags p td) k = dlookup p k := by
  induction td generalizing p with
  | nil => simp [mergeTags]
  | cons hd rest ih =>
    obtain ⟨k0, e⟩ := hd
    simp only [dkeys, List.map_cons, List.mem_cons] at h
    push_neg at h
    cases e with
    | err m => simpa [mergeTags] using ih p (by simpa [dkeys] using h.2)
    | val v ty =>
      simp only [mergeTags]
      rw [ih _ (by simpa [dkeys] using h.2),
        dlookup_dinsert_ne p v (fun hEq => h.1 hEq.symm)]

theorem mem_dkeys_of_mem {td : List (String × TagEntry)} {k : String}
    {e : TagEntry} (h : (k, e) ∈ td) : k ∈ dkeys td := by
  simpa [dkeys] using List.mem_map_of_mem Prod.fst h

theorem dlookup_mergeTags_mem (td : List (String × TagEntry))
    (p : List (String × PyVal)) (k : String) (v : PyVal) (ty : String)
    (hnd : (dkeys td).Nodup) (h : (k, TagEntry.val v ty) ∈ td) :
    dlookup (mergeTags p td) k = some v := by
  induction td generalizing p with
  | nil => cases h
  | cons hd rest ih =>
    obtain ⟨k0, e⟩ := hd
    simp only [dkeys, List.map_cons, List.nodup_cons] at hnd
    rcases List.mem_cons.mp h with hHead | hTail
    · obtain ⟨hk, he⟩ := Prod.mk.injEq .. ▸ hHead
      cases hk
      cases he
      simp only [mergeTags]
      rw [dlookup_mergeTags_not_mem rest _ k (by simpa [dkeys] using hnd.1),
        dlookup_dinsert_self]
    · have hk0 : k0 ≠ k := by
        intro hEq
        exact hnd.1 (hEq ▸ mem_dkeys_of_mem hTail)
      cases e with
      | err m => simpa [mergeTags] using ih _ hnd.2 hTail
      | val v0 ty0 => simpa [mergeTags] using ih _ hnd.2 hTail

theorem strData_append (a b : String) : (a ++ b).data = a.data ++ b.data := by
  obtain ⟨la⟩ := a
  obtain ⟨lb⟩ := b
  rfl

theorem strAppend_assoc (a b c : String) : a ++ b ++ c = a ++ (b ++ c) := by
  obtain ⟨la⟩ := a
  obtain ⟨lb⟩ := b
  obtain ⟨lc⟩ := c
  show String.mk (la ++ lb ++ lc) = String.mk (la ++ (lb ++ lc))
  rw [List.append_assoc]

theorem splitCommaAux_no_comma (l acc : List Char) (h : ¬ ',' ∈ l) :
    splitCommaAux l ⟨acc⟩ = [⟨acc ++ l⟩] := by
  induction l generalizing acc with
  | nil => simp [splitCommaAux]
  | cons c cs ih =>
    simp only [List.mem_cons] at h
    push_neg at h
    have hc : ¬ c = ',' := fun hEq => h.1 (hEq ▸ rfl)
    show (if c = ',' then _ else splitCommaAux cs ((⟨acc⟩ : String).push c)) = _
    rw [if_neg hc]
    show splitCommaAux cs ⟨acc ++ [c]⟩ = _
    rw [ih (acc ++ [c]) h.2]
    simp

theorem splitCommaAux_split (l1 l2 acc : List Char) (h : ¬ ',' ∈ l1) :
    splitCommaAux (l1 ++ ',' :: l2) ⟨acc⟩ = ⟨acc ++ l1⟩ :: splitCommaAux l2 "" := by
  induction l1 generalizing acc with
  | nil => simp [splitCommaAux]
  | cons c cs ih =>
    simp only [List.mem_cons] at h
    push_neg at h
    have hc : ¬ c = ',' := fun hEq => h.1 (hEq ▸ rfl)
    show (if c = ',' then _ else splitCommaAux (cs ++ ',' :: l2)
      ((⟨acc⟩ : String).push c)) = _
    rw [if_neg hc]
    show splitCommaAux (cs ++ ',' :: l2) ⟨acc ++ [c]⟩ = _
    rw [ih (acc ++ [c]) h.2]
    simp

theorem comma_data : (",").data = [','] := by decide

theorem empty_string_mk : ("" : String) = ⟨[]⟩ := by decide

theorem splitComma_append (a b : String) (h : ¬ ',' ∈ a.data) :
    splitComma (a ++ "," ++ b) = a :: splitComma b := by
  have hdata : (a ++ "," ++ b).data = a.data ++ ',' :: b.data := by
    rw [strData_append, strData_append, comma_data, List.append_assoc]
    rfl
  show splitCommaAux (a ++ "," ++ b).data "" = _
  rw [hdata, empty_string_mk, splitCommaAux_split a.data b.data [] h]
  simp [splitComma, empty_string_mk]

theorem splitComma_single (a : String) (h : ¬ ',' ∈ a.data) :
    splitComma a = [a] := by
  show splitCommaAux a.data "" = _
  rw [empty_string_mk, splitCommaAux_no_comma a.data [] h]
  simp

theorem splitComma_joinComma (vals : List String) (ts : String)
    (hvals : ∀ v ∈ vals, ¬ ',' ∈ v.data) (hts : ¬ ',' ∈ ts.data)
    (hne : vals ≠ []) :
    splitComma (joinComma vals ++ "," ++ ts) = vals ++ [ts] := by
  induction vals with
  | nil => exact absurd rfl hne
  | cons v vs ih =>
    cases vs with
    | nil =>
      show splitComma (v ++ "," ++ ts) = _
      rw [splitComma_append v ts (hvals v (by simp)),
        splitComma_single ts hts]
      rfl
    | cons v2 vs2 =>
      have hj : joinComma (v :: v2 :: vs2) = v ++ "," ++ joinComma (v2 :: vs2) := rfl
      rw [hj, strAppend_assoc, strAppend_assoc,
        ← strAppend_assoc (joinComma (v2 :: vs2)) "," ts]
      rw [splitComma_append v _ (hvals v (by simp))]
      rw [ih (fun w hw => hvals w (List.mem_cons_of_mem v hw)) (by simp)]
      simp

/-! ## Claims C4, C5, C10 — the publish formatters -/

/-- C4 (counterexample): the claim quantifies over every tag snapshot, but a
successfully-read tag literally named `HWID` overwrites the payload's
hardware-identifier field, so the payload's `HWID` key is NOT set to the
hardware identifier: with hardware id `"HW-1"` and snapshot
`{HWID: 99}` the published payload is `{HWID: 99, Timestamp: ts}`. -/
theorem json_hwid_tag_displaces_hardware_id :
    publishDeviceDataJson "Dev" (some "HW-1")
        [("HWID", TagEntry.val (PyVal.int 99) "int")] "T0" =
      [("HWID", PyVal.int 99), ("Timestamp", PyVal.str "T0")] ∧
    ¬ dlookup (publishDeviceDataJson "Dev" (some "HW-1")
        [("HWID", TagEntry.val (PyVal.int 99) "int")] "T0") "HWID" =
      some (PyVal.str "HW-1") := by
  refine ⟨rfl, fun h => ?_⟩
  have h2 : some (PyVal.int 99) = some (PyVal.str "HW-1") := h
  exact PyVal.noConfusion (Option.some.inj h2)

/-- C4 (amended): for every tag snapshot none of whose successfully-read tags
is named `HWID` or `Timestamp` (and whose successful tag names are distinct,
as they are when the snapshot is a Python dict), the json formatter produces
exactly `HWID` first (set to the hardware identifier, falling back to the
device display name), one key per successfully-read tag in insertion order
set to that tag's value, no key for errored tags, and `Timestamp` last set to
the cycle timestamp. -/
theorem json_payload_shape (name : String) (hw : Option String)
    (td : List (String × TagEntry)) (ts : String)
    (hnd : (dkeys (successPairs td)).Nodup)
    (hh : ¬ "HWID" ∈ dkeys (successPairs td))
    (ht : ¬ "Timestamp" ∈ dkeys (successPairs td)) :
    publishDeviceDataJson name hw td ts =
      ("HWID", PyVal.str (orName hw name)) ::
        (successPairs td ++ [("Timestamp", PyVal.str ts)]) := by
  show dinsert (mergeTags [("HWID", .str (orName hw name))] td)
      "Timestamp" (.str ts) = _
  rw [mergeTags_eq_append td [("HWID", .str (orName hw name))] hnd ?disj]
  case disj =>
    intro k hk
    simp only [dkeys, List.map_cons, List.map_nil, List.mem_singleton]
    intro hEq
    exact hh (hEq ▸ hk)
  rw [dinsert_of_not_mem _ _ ?fresh]
  case fresh =>
    rw [dkeys_append]
    simp only [List.mem_append]
    push_neg
    refine ⟨?_, ht⟩
    simp [dkeys]
  simp

/-- C4 (witness): the spec's own example — snapshot `{A: 10, B: error}` with
hardware id `"HW-1"` yields exactly `{HWID: "HW-1", A: 10, Timestamp: ts}`,
with no `B` key. -/
theorem json_payload_shape_witness :
    (dkeys (successPairs
        [("A", TagEntry.val (PyVal.int 10) "int"),
         ("B", TagEntry.err "Read failed")])).Nodup ∧
    publishDeviceDataJson "Dev" (some "HW-1")
        [("A", TagEntry.val (PyVal.int 10) "int"),
         ("B", TagEntry.err "Read failed")] "T0" =
      [("HWID", PyVal.str "HW-1"), ("A", PyVal.int 10),
       ("Timestamp", PyVal.str "T0")] :=
  ⟨by decide,
    json_payload_shape "Dev" (some "HW-1")
      [("A", TagEntry.val (PyVal.int 10) "int"),
       ("B", TagEntry.err "Read failed")] "T0"
      (by decide) (by decide) (by decide)⟩

/-- C5 (counterexample): the claim says no empty field is ever emitted for an
errored tag, but when every tag of the snapshot errored the payload is
`HWID,,timestamp` — the join of an empty value list between two commas — so
an empty field appears exactly where the errored tag was omitted. -/
theorem delimited_all_errored_empty_field :
    publishDeviceDataString "Dev" (some "HW-1")
        [("B", TagEntry.err "Read failed")] "T0" = "HW-1,,T0" ∧
    splitComma (publishDeviceDataString "Dev" (some "HW-1")
        [("B", TagEntry.err "Read failed")] "T0") = ["HW-1", "", "T0"] ∧
    "" ∈ splitComma (publishDeviceDataString "Dev" (some "HW-1")
        [("B", TagEntry.err "Read failed")] "T0") := by
  refine ⟨by decide, by decide, by decide⟩

/-- C5 (amended): provided the hardware identifier, the stringified values
and the timestamp contain no comma of their own, the delimited payload's
comma-separated fields are exactly `HWID`, the successfully-read values in
tag-insertion order, then the timestamp — an errored tag contributes no
field at all — and when additionally at least one tag succeeded and none of
those strings is empty, no empty field occurs; but when every tag errored
the payload degenerates to `HWID,,timestamp` with one empty field. -/
theorem delimited_payload_fields (name : String) (hw : Option String)
    (td : List (String × TagEntry)) (ts : String)
    (hvals : ∀ v ∈ tagValueStrings td, ¬ ',' ∈ v.data)
    (hts : ¬ ',' ∈ ts.data)
    (hhw : ¬ ',' ∈ (orName hw name).data) :
    (tagValueStrings td ≠ [] →
      splitComma (publishDeviceDataString name hw td ts) =
        orName hw name :: (tagValueStrings td ++ [ts])) ∧
    (tagValueStrings td = [] →
      publishDeviceDataString name hw td ts =
        orName hw name ++ ",," ++ ts) := by
  constructor
  · intro hne
    show splitComma (orName hw name ++ "," ++
      joinComma (tagValueStrings td) ++ "," ++ ts) = _
    rw [strAppend_assoc, strAppend_assoc,
      ← strAppend_assoc (joinComma (tagValueStrings td)) "," ts,
      splitComma_append _ _ hhw,
      splitComma_joinComma (tagValueStrings td) ts hvals hts hne]
  · intro hemp
    show orName hw name ++ "," ++ joinComma (tagValueStrings td) ++ "," ++ ts = _
    rw [hemp]
    show orName hw name ++ "," ++ "" ++ "," ++ ts = _
    rw [strAppend_assoc (orName hw name) "," "",
      show ("," ++ "" : String) = "," from by decide,
      strAppend_assoc (orName hw name) "," ",",
      show ("," ++ "," : String) = ",," from by decide]

/-- C5 (witness): the spec's own example — snapshot `{A: 10, B: error}` with
hardware id `"HW-1"` produces `"HW-1,10,T0"`, whose fields are exactly
`HW-1`, `10`, `T0`. -/
theorem delimited_payload_fields_witness :
    publishDeviceDataString "Dev" (some "HW-1")
        [("A", TagEntry.val (PyVal.int 10) "int"),
         ("B", TagEntry.err "Read failed")] "T0" = "HW-1,10,T0" ∧
    splitComma (publishDeviceDataString "Dev" (some "HW-1")
        [("A", TagEntry.val (PyVal.int 10) "int"),
         ("B", TagEntry.err "Read failed")] "T0") = ["HW-1", "10", "T0"] :=
  ⟨by decide,
    (delimited_payload_fields "Dev" (some "HW-1")
        [("A", TagEntry.val (PyVal.int 10) "int"),
         ("B", TagEntry.err "Read failed")] "T0"
        (by decide) (by decide) (by decide)).1 (by decide)⟩

/-- C10: the json formatter's merge step runs after the `HWID` key is set and
before the `Timestamp` key is set, so (for a snapshot with distinct tag
names, as a Python dict guarantees) a successfully-read tag literally named
`HWID` overwrites the hardware-identifier field with its own value, and the
`Timestamp` key always carries the cycle timestamp — overwriting the value
of any tag named `Timestamp`. -/
theorem json_reserved_key_collisions (name : String) (hw : Option String)
    (td : List (String × TagEntry)) (ts : String) (v : PyVal) (ty : String)
    (hnd : (dkeys td).Nodup) :
    ((("HWID", TagEntry.val v ty) ∈ td) →
      dlookup (publishDeviceDataJson name hw td ts) "HWID" = some v) ∧
    dlookup (publishDeviceDataJson name hw td ts) "Timestamp" =
      some (PyVal.str ts) := by
  constructor
  · intro hmem
    show dlookup (dinsert (mergeTags [("HWID", PyVal.str (orName hw name))] td)
      "Timestamp" (PyVal.str ts)) "HWID" = some v
    rw [dlookup_dinsert_ne _ (PyVal.str ts) (by decide),
      dlookup_mergeTags_mem td _ "HWID" v ty hnd hmem]
  · exact dlookup_dinsert_self _ "Timestamp" (PyVal.str ts)

/-- C10 (witness): with snapshot `{HWID: 99, Timestamp: 5}` and hardware id
`"HW-1"`, the payload's `HWID` key is 99 (the tag's value won) and its
`Timestamp` key is the cycle timestamp (the tag's value lost). -/
theorem json_reserved_key_collisions_witness :
    (dkeys [("HWID", TagEntry.val (PyVal.int 99) "int"),
            ("Timestamp", TagEntry.val (PyVal.int 5) "int")]).Nodup ∧
    dlookup (publishDeviceDataJson "Dev" (some "HW-1")
        [("HWID", TagEntry.val (PyVal.int 99) "int"),
         ("Timestamp", TagEntry.val (PyVal.int 5) "int")] "T0") "HWID" =
      some (PyVal.int 99) ∧
    dlookup (publishDeviceDataJson "Dev" (some "HW-1")
        [("HWID", TagEntry.val (PyVal.int 99) "int"),
         ("Timestamp", TagEntry.val (PyVal.int 5) "int")] "T0") "Timestamp" =
      some (PyVal.str "T0") :=
  ⟨by decide,
    (json_reserved_key_collisions "Dev" (some "HW-1")
        [("HWID", TagEntry.val (PyVal.int 99) "int"),
         ("Timestamp", TagEntry.val (PyVal.int 5) "int")] "T0"
        (PyVal.int 99) "int" (by decide)).1 (List.mem_cons_self _ _),
    (json_reserved_key_collisions "Dev" (some "HW-1")
        [("HWID", TagEntry.val (PyVal.int 99) "int"),
         ("Timestamp", TagEntry.val (PyVal.int 5) "int")] "T0"
        (PyVal.int 99) "int" (by decide)).2⟩

/-! ## Claims C3, C7 — the publish path inside the poll loop -/

theorem publishDataGen_raises_all (data : List (String × TagEntry)) :
    ∀ s : Session, publishDataGen s data (fun _ => true) = (s, 0, countVal data) := by
  induction data with
  | nil => intro s; rfl
  | cons hd rest ih =>
    intro s
    obtain ⟨t, e⟩ := hd
    cases e with
    | err m => simpa [publishDataGen, countVal] using ih s
    | val v ty => simp [publishDataGen, countVal, ih s]

/-- C3 (code_bug): `PLCConnection._publish_data` invokes
`publish_device_data` with keyword arguments `tag_name`, `value`,
`data_type` that are not parameters of `MQTTClientService.publish_device_data`
(and never supplies its required `tag_data`), so every per-tag call raises
`TypeError` before the publisher runs; `_publish_data` catches it, publishes
nothing, performs zero successful invocations, and never increments
`message_count` — it merely attempts one doomed call per non-errored tag. -/
theorem publish_call_never_binds :
    publishDataCallOk = false ∧
    ∀ (s : Session) (data : List (String × TagEntry)),
      publishData s data = (s, 0, countVal data) := by
  refine ⟨by decide, fun s data => ?_⟩
  show publishDataGen s data (fun _ => !publishDataCallOk) = _
  have hA : (fun (_ : String) => !publishDataCallOk) = fun _ => true := by
    funext t
    decide
  rw [hA, publishDataGen_raises_all data s]

theorem publishDataGen_fields (data : List (String × TagEntry)) :
    ∀ (s : Session) (raises : String → Bool),
      (publishDataGen s data raises).1.last_data = s.last_data ∧
      (publishDataGen s data raises).1.last_update = s.last_update ∧
      (publishDataGen s data raises).1.running = s.running ∧
      (publishDataGen s data raises).1.connected = s.connected ∧
      (publishDataGen s data raises).1.last_error = s.last_error ∧
      (publishDataGen s data raises).1.message_count =
        s.message_count + (publishDataGen s data raises).2.1 ∧
      (publishDataGen s data raises).2.2 = countVal data := by
  induction data with
  | nil => intro s raises; simp [publishDataGen, countVal]
  | cons hd rest ih =>
    intro s raises
    obtain ⟨t, e⟩ := hd
    cases e with
    | err m => simpa [publishDataGen, countVal] using ih s raises
    | val v ty =>
      by_cases hr : raises t
      · have h2 := ih s raises
        simp [publishDataGen, countVal, hr, h2]
      · have h2 := ih { s with message_count := s.message_count + 1 } raises
        simp only [publishDataGen, hr, if_false, Bool.false_eq_true] at h2 ⊢
        refine ⟨h2.1, h2.2.1, h2.2.2.1, h2.2.2.2.1, h2.2.2.2.2.1, ?_, ?_⟩
        · rw [h2.2.2.2.2.2.1]
          omega
        · rw [h2.2.2.2.2.2.2, countVal]

theorem readTags_fields (s : Session) (env : ReaderResult) :
    (readTags s env).1.running = s.running ∧
    (readTags s env).1.message_count = s.message_count ∧
    (readTags s env).1.last_data = s.last_data ∧
    (readTags s env).1.last_update = s.last_update := by
  cases env <;> simp only [readTags] <;> split <;> simp

/-- C7: in every cycle whose read produces a non-empty batch, the batch is
stored as `last_data` and `last_update` is stamped, for EVERY publish-call
outcome (`raises` chooses which per-tag calls fail): a publish failure never
rolls back the stored snapshot; `message_count` grows exactly by the calls
that completed, and exactly one publish attempt is made per non-errored tag
in the batch — no immediate retry within the cycle. -/
theorem snapshot_stored_regardless_of_publish (s : Session) (env : ReaderResult)
    (raises : String → Bool) (now : String)
    (h : ((readTags s env).2).isEmpty = false) :
    (pollCycle s env raises now).last_data = (readTags s env).2 ∧
    (pollCycle s env raises now).last_update = some now ∧
    (pollCycle s env raises now).message_count = s.message_count +
      (publishDataGen { (readTags s env).1 with last_data := (readTags s env).2 }
        (readTags s env).2 raises).2.1 ∧
    (publishDataGen { (readTags s env).1 with last_data := (readTags s env).2 }
      (readTags s env).2 raises).2.2 = countVal ((readTags s env).2) := by
  have hp := publishDataGen_fields ((readTags s env).2)
    { (readTags s env).1 with last_data := (readTags s env).2 } raises
  have hr := readTags_fields s env
  simp only [pollCycle, h, Bool.false_eq_true, if_false]
  refine ⟨by simp [hp.1], by simp, ?_, hp.2.2.2.2.2.2⟩
  simp only [hp.2.2.2.2.2.1]
  simp [hr.2.1]

/-- C7 (witness): a one-tag device whose read succeeds with `A = 10` and
whose publish call fails (as it always does, see C3): the snapshot is stored
and the timestamp stamped anyway. -/
theorem snapshot_stored_regardless_of_publish_witness :
    ((readTags sampleSession
        (ReaderResult.ok [("A", true, PyVal.int 10)])).2).isEmpty = false ∧
    (pollCycle sampleSession (ReaderResult.ok [("A", true, PyVal.int 10)])
        (fun _ => true) "T1").last_data =
      [("A", TagEntry.val (PyVal.int 10) "int")] ∧
    (pollCycle sampleSession (ReaderResult.ok [("A", true, PyVal.int 10)])
        (fun _ => true) "T1").last_update = some "T1" := by
  refine ⟨by decide, ?_, ?_⟩
  · exact (snapshot_stored_regardless_of_publish _ _ _ _ (by decide)).1.trans rfl
  · exact (snapshot_stored_regardless_of_publish _ _ _ _ (by decide)).2.1

/-! ## Claim C8 — the loop survives every in-cycle failure -/

theorem failingEnv_inv (e : CycleEnv) (h : failingEnv e = true) :
    ∃ m raises, e = CycleEnv.normal (ReaderResult.connErr m) raises := by
  cases e with
  | normal r raises =>
    cases r with
    | ok entries => simp [failingEnv] at h
    | connErr m => exact ⟨m, raises, rfl⟩
  | unexpected m => simp [failingEnv] at h

theorem pollCycle_connErr (s : Session) (m : String) (raises : String → Bool)
    (now : String) :
    (pollCycle s (ReaderResult.connErr m) raises now).running = s.running ∧
    (pollCycle s (ReaderResult.connErr m) raises now).connected = false ∧
    (pollCycle s (ReaderResult.connErr m) raises now).last_error ≠ none := by
  simp only [pollCycle, readTags]
  split <;> simp

theorem loopRun_failing (envs : List (CycleEnv × String)) :
    ∀ s : Session, s.running = true →
      (∀ e ∈ envs, failingEnv e.1 = true) →
      (loopRun s envs).running = true ∧
      (envs ≠ [] → (loopRun s envs).connected = false ∧
        (loopRun s envs).last_error ≠ none) := by
  induction envs with
  | nil => intro s hrun _; exact ⟨hrun, fun h => absurd rfl h⟩
  | cons e rest ih =>
    intro s hrun hfail
    obtain ⟨m, raises, hE⟩ := failingEnv_inv e.1 (hfail e (List.mem_cons_self e rest))
    obtain ⟨env, now⟩ := e
    simp only at hE
    subst hE
    have hstep : loopRun s ((CycleEnv.normal (ReaderResult.connErr m) raises, now)
        :: rest) = loopRun (pollCycle s (ReaderResult.connErr m) raises now) rest := by
      simp [loopRun, loopStep, hrun]
    have hc := pollCycle_connErr s m raises now
    rw [hstep]
    cases rest with
    | nil =>
      refine ⟨by simp [loopRun, hc.1, hrun], fun _ => ?_⟩
      exact ⟨by simp [loopRun, hc.2.1], by simp [loopRun]; exact hc.2.2⟩
    | cons e2 rest2 =>
      have ih2 := ih (pollCycle s (ReaderResult.connErr m) raises now)
        (by rw [hc.1]; exact hrun)
        (fun x hx => hfail x (List.mem_cons_of_mem _ hx))
      exact ⟨ih2.1, fun _ => ih2.2 (by simp)⟩

/-- C8: only the cooperative stop signal ends the loop — an iteration exits
iff the run flag is already clear, and every in-cycle failure (including an
unexpected exception, which is caught into `last_error`) continues to the
next cycle; consequently, after any non-empty run of cycles whose reads all
fail at the connection level, the device still reports `running = true`
while showing `connected = false` and a non-empty `last_error`. -/
theorem loop_survives_failures (s : Session) (envs : List (CycleEnv × String))
    (hrun : s.running = true)
    (hfail : ∀ e ∈ envs, failingEnv e.1 = true)
    (hne : envs ≠ []) :
    (loopRun s envs).running = true ∧
    (loopRun s envs).connected = false ∧
    (loopRun s envs).last_error ≠ none ∧
    (∀ (t : Session) (e : CycleEnv) (now : String),
      (∃ u, loopStep t e now = LoopResult.exit u) ↔ t.running = false) := by
  have h := loopRun_failing envs s hrun hfail
  refine ⟨h.1, (h.2 hne).1, (h.2 hne).2, fun t e now => ?_⟩
  constructor
  · rintro ⟨u, hu⟩
    by_contra hr
    have ht : t.running = true := by
      cases hR : t.running
      · exact absurd hR hr
      · rfl
    cases e <;> simp [loopStep, ht] at hu
  · intro hr
    exact ⟨t, by simp [loopStep, hr]⟩

/-- C8 (witness): one failing cycle on a running one-tag device leaves it
running, disconnected, and carrying the read error. -/
theorem loop_survives_failures_witness :
    sampleSession.running = true ∧
    (loopRun sampleSession
      [(CycleEnv.normal (ReaderResult.connErr "timeout") (fun _ => true),
        "T1")]).running = true ∧
    (loopRun sampleSession
      [(CycleEnv.normal (ReaderResult.connErr "timeout") (fun _ => true),
        "T1")]).connected = false ∧
    (loopRun sampleSession
      [(CycleEnv.normal (ReaderResult.connErr "timeout") (fun _ => true),
        "T1")]).last_error ≠ none := by
  have h := loop_survives_failures sampleSession
    [(CycleEnv.normal (ReaderResult.connErr "timeout") (fun _ => true), "T1")]
    rfl
    (fun e he => by
      rw [List.mem_singleton] at he
      subst he
      rfl)
    (by simp)
  exact ⟨rfl, h.1, h.2.1, h.2.2.1⟩

/-! ## Claims C6, C9 — lifecycle and registry semantics -/

/-- C6: `start()` on a running session returns failure and leaves the session
untouched (still running); on a stopped session it flips only the run flag
and returns success immediately — no other field changes, and the freshly
spawned loop thread sits at the top of its loop, before any read; the
Manager's `start_device` on an unregistered identifier returns failure. -/
theorem start_semantics (s : Session) (reg : Registry) (id : String)
    (ls : List LPC) :
    (s.running = true → Session.start s = (false, s)) ∧
    (s.running = false →
      Session.start s = (true, { s with running := true })) ∧
    (dlookup reg id = none → startDevice reg id = (false, reg)) ∧
    applyAct ⟨false, ls⟩ Act.start = ⟨true, ls ++ [LPC.top]⟩ := by
  refine ⟨fun h => ?_, fun h => ?_, fun h => ?_, ?_⟩
  · simp [Session.start, h]
  · simp [Session.start, h]
  · simp [startDevice, h]
  · simp [applyAct]

/-- C6 (witness): starting the already-running sample session fails and
leaves it as it was; `start_device` on an empty registry fails; starting a
stopped device spawns one fresh loop thread at its top. -/
theorem start_semantics_witness :
    Session.start sampleSession = (false, sampleSession) ∧
    startDevice [] "nope" = (false, []) ∧
    applyAct ⟨false, []⟩ Act.start = ⟨true, [LPC.top]⟩ :=
  ⟨(start_semantics sampleSession [] "x" []).1 rfl,
   (start_semantics sampleSession [] "nope" []).2.2.1 rfl,
   (start_semantics sampleSession [] "x" []).2.2.2⟩

/-- C9: `add_device` on a registered identifier fails and leaves the registry
unchanged; on a fresh identifier it succeeds, registering a session built by
`PLCConnection.__init__`, so that an immediately following
`get_device_status` returns a snapshot with `running = false`. -/
theorem add_device_semantics (reg : Registry) (c : DeviceConfig) :
    ((dlookup reg c.device_id).isSome = true → addDevice reg c = (false, reg)) ∧
    (dlookup reg c.device_id = none →
      (addDevice reg c).1 = true ∧
      getDeviceStatus (addDevice reg c).2 c.device_id =
        some (getStatus (initSession c)) ∧
      (getStatus (initSession c)).running = false) := by
  constructor
  · intro h
    simp [addDevice, h]
  · intro h
    have h2 : (dlookup reg c.device_id).isSome = false := by simp [h]
    refine ⟨by simp [addDevice, h2], ?_, rfl⟩
    have hreg : (addDevice reg c).2 = reg ++ [(c.device_id, initSession c)] := by
      simp [addDevice, h2]
    rw [hreg]
    unfold getDeviceStatus
    rw [dlookup_append_left_none reg _ _ h]
    simp [dlookup]

/-- C9 (witness): adding the sample configuration to an empty registry
succeeds and its immediate status shows `running = false`. -/
theorem add_device_semantics_witness :
    (addDevice [] sampleConfig).1 = true ∧
    getDeviceStatus (addDevice [] sampleConfig).2 sampleConfig.device_id =
      some (getStatus (initSession sampleConfig)) ∧
    (getStatus (initSession sampleConfig)).running = false :=
  (add_device_semantics [] sampleConfig).2 rfl

/-! ## Claim C1 — at most one active loop per device -/

theorem activeCount_append (l1 l2 : List LPC) :
    activeCount (l1 ++ l2) = activeCount l1 + activeCount l2 := by
  induction l1 with
  | nil => simp [activeCount]
  | cons p rest ih => simp [activeCount, ih, Nat.add_assoc]

theorem activeCount_set_le (l : List LPC) (i : Nat) (r : Bool) :
    activeCount (l.set i (lpcStep r (l.getD i LPC.exited))) ≤ activeCount l := by
  induction l generalizing i with
  | nil => simp [activeCount]
  | cons p rest ih =>
    cases i with
    | zero =>
      show activeCount (lpcStep r p :: rest) ≤ activeCount (p :: rest)
      cases p <;> cases r <;> simp [lpcStep, activeCount]
    | succ n =>
      show activeCount (p :: rest.set n (lpcStep r (rest.getD n LPC.exited))) ≤
        activeCount (p :: rest)
      simp only [activeCount]
      exact Nat.add_le_add_left (ih n) _

/-- C1 (counterexample): with the default 5-second poll interval the sleep
outlasts `stop`'s 2-second `join`, so `stop` can return while the old loop
still sleeps; a subsequent `start` re-sets the run flag and spawns a second
loop, and the old loop, waking, sees `running = True` and re-enters its body:
two loops are active for one device.  The schedule below is exactly start;
run to the sleep; stop (join times out); start; old loop wakes and
continues. -/
theorem two_active_loops_reachable :
    activeLoops (runActs DevState.init
      [Act.start, Act.step 0, Act.step 0, Act.stop, Act.start,
       Act.step 0, Act.step 0]) = 2 := by decide

/-- C1 (amended): the at-most-one-active-loop invariant holds exactly on
schedules where every `start` happens only after all previously spawned
loops have exited — i.e. when each `stop`'s join actually outlives the loop
(guaranteed when the remaining sleep fits inside the 2-second join timeout,
but not with the default 5-second poll interval, see the counterexample). -/
theorem at_most_one_active_loop (acts : List Act) :
    ∀ d : DevState, activeLoops d ≤ 1 → joinedSchedule d acts = true →
      activeLoops (runActs d acts) ≤ 1 := by
  induction acts with
  | nil =>
    intro d h _
    exact h
  | cons a rest ih =>
    intro d h hs
    simp only [joinedSchedule, Bool.and_eq_true] at hs
    have hstep : activeLoops (applyAct d a) ≤ 1 := by
      cases a with
      | start =>
        have h0 : activeLoops d = 0 := by
          have := hs.1
          simpa using this
        by_cases hr : d.running
        · simpa [applyAct, hr] using h
        · have hred : applyAct d Act.start = ⟨true, d.loops ++ [LPC.top]⟩ := by
            simp [applyAct, hr]
          rw [hred]
          show activeCount (d.loops ++ [LPC.top]) ≤ 1
          rw [activeCount_append]
          have h00 : activeCount d.loops = 0 := h0
          simp [h00, activeCount]
      | stop => by_cases hr : d.running <;> simpa [applyAct, hr, activeLoops] using h
      | step i =>
        calc activeLoops (applyAct d (Act.step i))
            = activeCount (d.loops.set i (lpcStep d.running
                (d.loops.getD i LPC.exited))) := rfl
          _ ≤ activeCount d.loops := activeCount_set_le d.loops i d.running
          _ ≤ 1 := h
    show activeLoops (runActs (applyAct d a) rest) ≤ 1
    exact ih (applyAct d a) hstep hs.2

/-- C1 (witness): a schedule on which the loop exits before the restart —
start; run to the sleep; stop; loop wakes, sees the cleared flag and exits;
start again — keeps at most one loop active throughout and ends with exactly
the fresh loop running. -/
theorem at_most_one_active_loop_witness :
    joinedSchedule DevState.init
      [Act.start, Act.step 0, Act.step 0, Act.stop, Act.step 0, Act.step 0,
       Act.start, Act.step 1] = true ∧
    activeLoops (runActs DevState.init
      [Act.start, Act.step 0, Act.step 0, Act.stop, Act.step 0, Act.step 0,
       Act.start, Act.step 1]) ≤ 1 :=
  ⟨by decide,
    at_most_one_active_loop
      [Act.start, Act.step 0, Act.step 0, Act.stop, Act.step 0, Act.step 0,
       Act.start, Act.step 1] DevState.init (by decide) (by decide)⟩

/-! ## Claim C2 — configuration update on a running session -/

/-- C2 (code_bug): `EthernetIPMQTTBridge.update_device` acquires the
non-reentrant bridge lock and then — precisely when the device is running,
the case the claim is about — calls `stop_device`, which blocks forever
re-acquiring the same lock: the update call never completes, so no stop →
mutate → restart step happens at all.  For a device that is NOT running the
call does complete and applies the new configuration. -/
theorem update_running_device_self_deadlocks (reg : BRegistry) (id : String)
    (u : BUpdate) (d : BDevice) (hd : dlookup reg id = some d) :
    (d.running = true → bridgeUpdateDevice reg id u = POutcome.blocked) ∧
    (d.running = false →
      bridgeUpdateDevice reg id u =
        POutcome.ok (true, dinsert reg id (applyBUpdate d u))) := by
  constructor
  · intro h
    simp [bridgeUpdateDevice, hd, h, bridgeStopDevice, acquireLock]
  · intro h
    simp [bridgeUpdateDevice, hd, h, acquireLock]

/-- C2 (witness): updating the running sample device deadlocks; updating the
stopped one completes. -/
theorem update_running_device_self_deadlocks_witness :
    (sampleBDevice true).running = true ∧
    bridgeUpdateDevice [("d1", sampleBDevice true)] "d1" noUpdate =
      POutcome.blocked ∧
    bridgeUpdateDevice [("d1", sampleBDevice false)] "d1" noUpdate =
      POutcome.ok (true, dinsert [("d1", sampleBDevice false)] "d1"
        (applyBUpdate (sampleBDevice false) noUpdate)) :=
  ⟨rfl,
    (update_running_device_self_deadlocks [("d1", sampleBDevice true)] "d1"
      noUpdate (sampleBDevice true) rfl).1 rfl,
    (update_running_device_self_deadlocks [("d1", sampleBDevice false)] "d1"
      noUpdate (sampleBDevice false) rfl).2 rfl⟩
